import Mathlib

/-
  Verification of the Play.Catalog catalog microservice.

  The development shallowly embeds the Go source:
    - internal/data/items.go : the Item entity, its validation and the
      items-collection provisioning routine;
    - the HTTP handlers (createItemHandler, updateItemHandler) of the
      items endpoints;
  and models, from the specification, the parts of the system whose code
  lives outside this repository (the generic Mongo repository of
  Play.Common and the replica-synchronization consumer): those
  definitions carry a doc comment starting with "Modelled from the spec".

  Machine conventions: MongoDB ObjectIDs are modelled as natural
  numbers, user identifiers as integers (int64), versions as integers
  (int32; no claim approaches overflow), prices as rationals and UTC
  instants as natural numbers.  A stored collection is a list of
  documents.
-/

/-- Repository error taxonomy from the specification: NotFound,
EditConflict and StoreError. -/
inductive RepoError where
  | notFound
  | editConflict
  | storeError
deriving DecidableEq, Repr

/-- Modelled from the spec: the Play.Common validator (not part of this
repository) accumulates keyed error messages; the map-like store keeps
the first message recorded for a key. -/
structure Validator where
  Errors : List (String × String)
deriving DecidableEq, Repr

/-- Modelled from the spec: a fresh validator with no errors. -/
def Validator.New : Validator := ⟨[]⟩

/-- Modelled from the spec: record an error message under a key unless
the key already holds one (map insertion semantics). -/
def Validator.AddError (v : Validator) (key message : String) : Validator :=
  if v.Errors.any (fun kv => kv.1 == key) then v
  else ⟨v.Errors ++ [(key, message)]⟩

/-- Modelled from the spec: Check records the error when the condition
is false. -/
def Validator.Check (v : Validator) (ok : Bool) (key message : String) : Validator :=
  if ok then v else v.AddError key message

/-- Modelled from the spec: a validator has errors when at least one was
recorded. -/
def Validator.HasErrors (v : Validator) : Bool :=
  !v.Errors.isEmpty

/-- Modelled from the spec: validator.Between of Play.Common, the
inclusive range check used by the price rule ("within [0.1, 1000]
inclusive"). -/
def Between (val min max : ℚ) : Bool :=
  decide (min ≤ val) && decide (val ≤ max)

/-- The Item entity of internal/data/items.go: identifier, name,
description, price, version and the two UTC timestamps. -/
structure Item where
  ID : Nat
  Name : String
  Description : String
  Price : ℚ
  Version : Int
  CreatedAt : Nat
  UpdatedAt : Nat
deriving DecidableEq, Repr

/-- GetID of items.go: returns the identifier of an item. -/
def Item.GetID (i : Item) : Nat := i.ID

/-- GetVersion of items.go: returns the version of an item. -/
def Item.GetVersion (i : Item) : Int := i.Version

/-- SetVersion of items.go: the Go method has a value receiver, so it
operates on a copy of the item; it sets the copy's version and returns
the copy, leaving the caller's value untouched (in this pure embedding
the argument is immutable by construction). -/
def Item.SetVersion (i : Item) (version : Int) : Item :=
  { i with Version := version }

/-- ValidateItem of items.go, line for line: the name check and the
description check both record their error under the key "name" (the
description check passes the literal "name" as its key), and the price
check uses Between with bounds 0.1 and 1000 (the float literal 0.1 is
embedded as the exact rational one tenth). -/
def ValidateItem (v : Validator) (item : Item) : Validator :=
  ((v.Check (item.Name != "") ("name") ("must be provided")).Check
      (item.Description != "") ("name") ("must be provided")).Check
    (Between item.Price (mkRat 1 10) 1000) ("price")
    ("must be greater or equal to 0.1 and lower or equal to 1000")

/-- Outcome of the store-level CreateCollection call: success, an
"already exists" failure, or any other failure (connectivity, invalid
options, ...).  The Go code receives an opaque error value and never
inspects which one it got. -/
inductive CreateCollectionResult where
  | ok
  | alreadyExists
  | otherFailure
deriving DecidableEq, Repr

/-- Outcome of the store-level index creation call. -/
inductive CreateIndexesResult where
  | ok
  | failure
deriving DecidableEq, Repr

/-- CreateItemsCollection of items.go.  The control flow of the source:
if CreateCollection returns a non-nil error the function immediately
returns nil (the comment says the error is the "already exists" one, but
the code returns nil for every non-nil error, and skips index creation);
otherwise it creates the indexes and propagates their error. -/
def CreateItemsCollection (createRes : CreateCollectionResult)
    (indexRes : CreateIndexesResult) : Option RepoError :=
  match createRes with
  | .alreadyExists => none
  | .otherFailure => none
  | .ok =>
    match indexRes with
    | .failure => some .storeError
    | .ok => none

/-- main (startup): a non-nil result of CreateItemsCollection is fatal
(logger.Fatal); true means startup aborts. -/
def startupAbortsOnItemsProvisioning (createRes : CreateCollectionResult)
    (indexRes : CreateIndexesResult) : Bool :=
  (CreateItemsCollection createRes indexRes).isSome

/-- Modelled from the spec: getByID of the Versioned Repository
(Play.Common, not in this repository) — point lookup, NotFound when no
document matches the identifier. -/
def MongoRepository.GetByID (db : List Item) (id : Nat) : Except RepoError Item :=
  match db.find? (fun s => s.ID == id) with
  | some i => .ok i
  | none => .error .notFound

/-- Modelled from the spec: create of the Versioned Repository — inserts
a new document with a store-assigned identifier; fails with StoreError
on a uniqueness-constraint violation (name and description carry unique
indexes). -/
def MongoRepository.Create (db : List Item) (entity : Item) (newId : Nat) :
    Except RepoError (Nat × List Item) :=
  if db.any (fun s => s.Name == entity.Name || s.Description == entity.Description) then
    .error .storeError
  else
    .ok (newId, db ++ [{ entity with ID := newId }])

/-- Modelled from the spec: update of the Versioned Repository — a
conditional write replacing the document matched by (id = entity.ID,
version = entity.Version), setting all mutable fields and incrementing
the stored version by 1, in one atomic store operation.  Zero matching
documents means EditConflict and the store is left unmodified. -/
def MongoRepository.Update (db : List Item) (entity : Item) :
    Except RepoError (List Item) :=
  if db.any (fun s => s.ID == entity.ID && s.Version == entity.Version) then
    .ok (db.map (fun s =>
      if s.ID == entity.ID && s.Version == entity.Version then
        { entity with Version := entity.Version + 1 }
      else s))
  else
    .error .editConflict

/-- Point lookup by identifier inside a stored items collection (the
read view a later getByID would observe). -/
def lookupItem (db : List Item) (id : Nat) : Option Item :=
  db.find? (fun s => s.ID == id)

/-- A repository operation issued by a handler, as recorded in the
handler's trace: a point read, a conditional write (update), an insert
or a removal, each tagged with the identifier it targets. -/
inductive RepoOp where
  | read (id : Nat)
  | write (id : Nat)
  | insert (id : Nat)
  | remove (id : Nat)
deriving DecidableEq, Repr

/-- The response kind a handler sends back (the envelope and status code
are transport details; only the kind matters to the claims). -/
inductive Response where
  | ok
  | created
  | notFoundResponse
  | failedValidation
  | editConflictResponse
  | serverError
deriving DecidableEq, Repr

/-- Result of one handler execution: the response sent, the stored items
collection after the execution, and the trace of repository operations
the handler issued. -/
structure HandlerResult where
  response : Response
  db : List Item
  ops : List RepoOp
deriving DecidableEq, Repr

/-- Request body of "POST /items" (createItemHandler's input struct):
all three fields are plain values. -/
structure CreateInput where
  Name : String
  Description : String
  Price : ℚ
deriving DecidableEq, Repr

/-- Request body of "PUT /items/:id" (updateItemHandler's input struct):
the fields are pointers in the source, so an absent key decodes to nil;
none models nil. -/
structure UpdateInput where
  Name : Option String
  Description : Option String
  Price : Option ℚ
deriving DecidableEq, Repr

/-- The field-merge step of updateItemHandler: each input field that is
present overwrites the fetched item's field, each nil field leaves it
untouched, and UpdatedAt is unconditionally set to the current UTC time;
ID, CreatedAt and Version are not touched. -/
def applyUpdateInput (item : Item) (input : UpdateInput) (now : Nat) : Item :=
  { item with
      Name := input.Name.getD item.Name
      Description := input.Description.getD item.Description
      Price := input.Price.getD item.Price
      UpdatedAt := now }

/-- createItemHandler of the items endpoints source, after a successful
body decode (transport-level decode failures end before any logic the
claims mention).  The source builds the item with two separate
time.Now().UTC() calls, one for CreatedAt and one for UpdatedAt: they
are modelled as the two consecutive clock readings now1 and now2.
Validation runs before any repository call; on success the repository
inserts the document with the store-assigned identifier newId. -/
def createItemHandler (db : List Item) (input : CreateInput)
    (now1 now2 : Nat) (newId : Nat) : HandlerResult :=
  let item : Item :=
    { ID := 0
      Name := input.Name
      Description := input.Description
      Price := input.Price
      Version := 1
      CreatedAt := now1
      UpdatedAt := now2 }
  let v := ValidateItem Validator.New item
  if v.HasErrors then
    { response := .failedValidation, db := db, ops := [] }
  else
    match MongoRepository.Create db item newId with
    | .error _ => { response := .serverError, db := db, ops := [.insert newId] }
    | .ok (_, db2) => { response := .created, db := db2, ops := [.insert newId] }

/-- updateItemHandler of the items endpoints source, after a successful
identifier extraction and body decode.  The source first fetches the
item (GetByID), then merges the supplied fields and refreshes UpdatedAt,
then validates, and only then attempts the conditional update; an
ErrEditConflict from the repository maps to the edit-conflict response.
To let the claims speak about a concurrent writer between the fetch and
the conditional write, the store is passed twice: dbRead is its state at
the fetch and dbWrite its state when Update executes (they coincide when
no interleaving write happens). -/
def updateItemHandler (dbRead dbWrite : List Item) (id : Nat)
    (input : UpdateInput) (now : Nat) : HandlerResult :=
  match MongoRepository.GetByID dbRead id with
  | .error _ => { response := .notFoundResponse, db := dbWrite, ops := [.read id] }
  | .ok item0 =>
    let item1 := applyUpdateInput item0 input now
    let v := ValidateItem Validator.New item1
    if v.HasErrors then
      { response := .failedValidation, db := dbWrite, ops := [.read id] }
    else
      match MongoRepository.Update dbWrite item1 with
      | .error .editConflict =>
        { response := .editConflictResponse, db := dbWrite, ops := [.read id, .write id] }
      | .error _ =>
        { response := .serverError, db := dbWrite, ops := [.read id, .write id] }
      | .ok db2 =>
        { response := .ok, db := db2, ops := [.read id, .write id] }

/-- The locally cached user replica (foreign-owned entity): integer
identifier, authorization-relevant fields and the version asserted by
the owning service. -/
structure User where
  id : Int
  name : String
  permissions : List String
  version : Int
deriving DecidableEq, Repr

/-- A user-changed event as carried by the transport: (userId, name,
permissions, version). -/
structure UserEvent where
  id : Int
  name : String
  permissions : List String
  version : Int
deriving DecidableEq, Repr

/-- The replica row an event asserts. -/
def UserEvent.toUser (ev : UserEvent) : User :=
  { id := ev.id, name := ev.name, permissions := ev.permissions, version := ev.version }

/-- Point lookup in the users collection (getByID of the repository for
the user entity type). -/
def lookupUser (db : List User) (id : Int) : Option User :=
  db.find? (fun u => u.id == id)

/-- Modelled from the spec: the per-message protocol of the Replica
Synchronization Consumer (internal/rabbitmq, not under the provided
sources).  After a successful decode: getByID; on NotFound create the
replica with the incoming fields and incoming version; on a hit, an
incoming version less than or equal to the stored one is discarded as a
stale or duplicate redelivery, and a strictly greater one replaces the
fields and sets the version to the incoming value. -/
def applyUserEvent (db : List User) (ev : UserEvent) : List User :=
  match lookupUser db ev.id with
  | none => db ++ [ev.toUser]
  | some u =>
    if ev.version ≤ u.version then db
    else db.map (fun w => if w.id == ev.id then ev.toUser else w)

/-- Modelled from the spec: the metadata of a listing — total matching
count, current page, page size and total pages; an empty result set
reports zero totals. -/
structure Metadata where
  CurrentPage : Nat
  PageSize : Nat
  TotalPages : Nat
  TotalRecords : Nat
deriving DecidableEq, Repr

/-- Modelled from the spec: metadata computation of the Versioned
Repository's getAll — for N matching documents and page size P the
reported pages are the ceiling of N divided by P, and an empty result
set yields all-zero metadata without error. -/
def calculateMetadata (totalRecords page pageSize : Nat) : Metadata :=
  if totalRecords = 0 then
    { CurrentPage := 0, PageSize := 0, TotalPages := 0, TotalRecords := 0 }
  else
    { CurrentPage := page
      PageSize := pageSize
      TotalPages := (totalRecords + pageSize - 1) / pageSize
      TotalRecords := totalRecords }

/-- Modelled from the spec: the paging step of getAll — the matching
documents (already filtered and sorted) are cut to one page by skipping
(page - 1) * pageSize documents and returning at most pageSize of them,
alongside the metadata; a page past the last yields an empty sequence,
never an error. -/
def getAllPage (matching : List Item) (page pageSize : Nat) :
    List Item × Metadata :=
  ((matching.drop ((page - 1) * pageSize)).take pageSize,
   calculateMetadata matching.length page pageSize)

/-- A sample stored item used by concrete witnesses: identifier 1, name
"a", description "b", price 1, creation time 0, and the given version
and update time. -/
def itemOne (version : Int) (updatedAt : Nat) : Item :=
  { ID := 1, Name := "a", Description := "b", Price := 1,
    Version := version, CreatedAt := 0, UpdatedAt := updatedAt }

lemma lookupUser_replace (db : List User) (i : Int) (x : User) (hx : x.id = i)
    (u : User) (hu : lookupUser db i = some u) :
    lookupUser (db.map (fun w => if w.id == i then x else w)) i = some x := by
  induction db with
  | nil => simp [lookupUser] at hu
  | cons w tl ih =>
    by_cases hw : w.id = i
    · simp [lookupUser, List.find?_cons, hw, hx]
    · have hwb : (w.id == i) = false := by simp [hw]
      simp only [lookupUser, List.map_cons, List.find?_cons, hwb, if_false,
        Bool.false_eq_true] at hu ⊢
      exact ih (by simpa [lookupUser] using hu)

lemma lookupItem_after_update (db : List Item) (id : Nat) (item0 e y : Item)
    (h0 : lookupItem db id = some item0) (he : e.ID = id)
    (hv : e.Version = item0.Version) (hy : y.ID = id) :
    lookupItem
      (db.map (fun s => if s.ID == e.ID && s.Version == e.Version then y else s)) id
      = some y := by
  induction db with
  | nil => simp [lookupItem] at h0
  | cons s tl ih =>
    by_cases hs : s.ID = id
    · have hfirst : item0 = s := by
        simp [lookupItem, List.find?_cons, hs] at h0
        exact h0.symm
      have hcond : (s.ID == e.ID && s.Version == e.Version) = true := by
        simp [hs, he, hv, hfirst]
      simp only [lookupItem, List.map_cons, List.find?_cons, hcond, if_true]
      simp [hy]
    · have hcond : (s.ID == e.ID && s.Version == e.Version) = false := by
        simp [he]
        intro h
        exact absurd h hs
      have hsb : (s.ID == id) = false := by simp [hs]
      simp only [lookupItem, List.map_cons, List.find?_cons, hcond, hsb, if_false,
        Bool.false_eq_true] at h0 ⊢
      exact ih (by simpa [lookupItem] using h0)

lemma update_editConflict_of_no_match (db : List Item) (e : Item)
    (h : ∀ s ∈ db, s.ID = e.ID → s.Version ≠ e.Version) :
    MongoRepository.Update db e = .error .editConflict := by
  unfold MongoRepository.Update
  rw [if_neg]
  intro hany
  rw [List.any_eq_true] at hany
  obtain ⟨s, hs, hcond⟩ := hany
  rw [Bool.and_eq_true, beq_iff_eq, beq_iff_eq] at hcond
  exact h s hs hcond.1 hcond.2

lemma getByID_id_eq (db : List Item) (id : Nat) (item0 : Item)
    (h : MongoRepository.GetByID db id = .ok item0) :
    lookupItem db id = some item0 ∧ item0.ID = id := by
  unfold MongoRepository.GetByID at h
  cases hf : db.find? (fun s => s.ID == id) with
  | none => rw [hf] at h; cases h
  | some j =>
    rw [hf] at h
    cases h
    refine ⟨hf, ?_⟩
    have := List.find?_some hf
    simpa using this

lemma hasErrors_check_mono (v : Validator) (b : Bool) (k m : String)
    (h : v.HasErrors = true) : (v.Check b k m).HasErrors = true := by
  cases b with
  | true => simpa [Validator.Check] using h
  | false =>
    unfold Validator.Check Validator.AddError
    by_cases ha : v.Errors.any (fun kv => kv.1 == k)
    · simpa [ha] using h
    · simp only [Bool.false_eq_true, if_false, ha] at h ⊢
      simp [Validator.HasErrors, List.isEmpty_iff] at h ⊢

lemma hasErrors_check_false (v : Validator) (k m : String) :
    (v.Check false k m).HasErrors = true := by
  unfold Validator.Check Validator.AddError
  by_cases ha : v.Errors.any (fun kv => kv.1 == k) = true
  · obtain ⟨kv, hkv, _⟩ := List.any_eq_true.mp ha
    have hne : v.Errors ≠ [] := List.ne_nil_of_mem hkv
    simp [ha, Validator.HasErrors, List.isEmpty_iff, hne]
  · simp [ha, Validator.HasErrors]

/-- C8: for every item i and version value v, SetVersion returns a copy
of i whose version field equals v and whose id, name, description,
price, createdAt and updatedAt are unchanged; the Go method's value
receiver means the caller's item is never mutated, which the pure
embedding reflects by construction (SetVersion is a function of an
immutable argument). -/
theorem C8_setVersion_copy (i : Item) (v : Int) :
    (i.SetVersion v).Version = v ∧
    (i.SetVersion v).ID = i.ID ∧
    (i.SetVersion v).Name = i.Name ∧
    (i.SetVersion v).Description = i.Description ∧
    (i.SetVersion v).Price = i.Price ∧
    (i.SetVersion v).CreatedAt = i.CreatedAt ∧
    (i.SetVersion v).UpdatedAt = i.UpdatedAt :=
  ⟨rfl, rfl, rfl, rfl, rfl, rfl, rfl⟩

/-- C4 counterexample: a collection-creation failure that is not
"already exists" (for example a connectivity failure) is also swallowed:
provisioning reports success and startup proceeds, contradicting the
claim that every provisioning failure other than "already exists" is
propagated and fatal. -/
theorem C4_counterexample :
    CreateItemsCollection CreateCollectionResult.otherFailure CreateIndexesResult.ok = none ∧
    startupAbortsOnItemsProvisioning CreateCollectionResult.otherFailure CreateIndexesResult.ok
      = false := by
  decide

/-- C4 (amended): provisioning swallows every collection-creation
failure, "already exists" or not (returning success and skipping index
creation), while an index-creation failure reached after a successful
collection creation is propagated and treated as fatal at startup. -/
theorem C4_provisioning_error_policy :
    (∀ idx, CreateItemsCollection CreateCollectionResult.alreadyExists idx = none) ∧
    (∀ idx, CreateItemsCollection CreateCollectionResult.otherFailure idx = none) ∧
    CreateItemsCollection CreateCollectionResult.ok CreateIndexesResult.failure
      = some RepoError.storeError ∧
    startupAbortsOnItemsProvisioning CreateCollectionResult.ok CreateIndexesResult.failure
      = true ∧
    (∀ createRes idx, CreateItemsCollection createRes idx = none →
      startupAbortsOnItemsProvisioning createRes idx = false) ∧
    CreateItemsCollection CreateCollectionResult.ok CreateIndexesResult.ok = none := by
  refine ⟨fun idx => rfl, fun idx => rfl, rfl, rfl, ?_, rfl⟩
  intro createRes idx h
  simp [startupAbortsOnItemsProvisioning, h]

lemma create_ok_db (db : List Item) (e : Item) (newId : Nat)
    (db2 : List Item) (id2 : Nat)
    (h : MongoRepository.Create db e newId = .ok (id2, db2)) :
    db2 = db ++ [{ e with ID := newId }] := by
  unfold MongoRepository.Create at h
  by_cases hdup : db.any
      (fun s => s.Name == e.Name || s.Description == e.Description) = true
  · rw [if_pos hdup] at h; cases h
  · rw [if_neg hdup] at h
    cases h
    rfl

/-- C6 counterexample: a successful creation in a run where the clock
advanced by one unit between the CreatedAt reading and the UpdatedAt
reading (the source calls time.Now().UTC() twice) stores an item whose
createdAt differs from its updatedAt, contradicting the claim that they
are equal on every successful creation. -/
theorem C6_counterexample :
    (createItemHandler [] { Name := "a", Description := "b", Price := 1 } 0 1 7).response
      = Response.created ∧
    ((createItemHandler [] { Name := "a", Description := "b", Price := 1 } 0 1 7).db.all
      (fun it => it.CreatedAt == it.UpdatedAt)) = false := by
  decide

/-- C6 (amended): every successful item creation stores the item with
version exactly 1, createdAt equal to the first current-UTC clock
reading and updatedAt equal to the second, consecutive reading (the
source takes two separate time.Now().UTC() readings, so the two
timestamps coincide exactly when the clock did not advance between
them). -/
theorem C6_create_version_and_timestamps
    (db : List Item) (input : CreateInput) (now1 now2 : Nat) (newId : Nat)
    (hok : (createItemHandler db input now1 now2 newId).response = Response.created) :
    (createItemHandler db input now1 now2 newId).db
      = db ++ [{ ID := newId, Name := input.Name, Description := input.Description,
                 Price := input.Price, Version := 1, CreatedAt := now1,
                 UpdatedAt := now2 }] := by
  unfold createItemHandler at hok ⊢
  set item : Item :=
    { ID := 0, Name := input.Name, Description := input.Description,
      Price := input.Price, Version := 1, CreatedAt := now1,
      UpdatedAt := now2 } with hitem
  by_cases hv : (ValidateItem Validator.New item).HasErrors = true
  · simp [hv] at hok
  · simp only [Bool.not_eq_true] at hv
    simp only [hv, Bool.false_eq_true, if_false] at hok ⊢
    cases hc : MongoRepository.Create db item newId with
    | error e => rw [hc] at hok; simp at hok
    | ok p =>
      obtain ⟨id2, db2⟩ := p
      have hdb2 := create_ok_db db item newId db2 id2 hc
      simp only [hdb2]

/-- C6 witness: the amended theorem applied at a concrete successful
creation with coinciding clock readings. -/
theorem C6_create_version_and_timestamps_witness :
    (createItemHandler [] { Name := "a", Description := "b", Price := 1 } 5 5 7).response
      = Response.created ∧
    (createItemHandler [] { Name := "a", Description := "b", Price := 1 } 5 5 7).db
      = [] ++ [{ ID := 7, Name := "a", Description := "b", Price := 1, Version := 1,
                 CreatedAt := 5, UpdatedAt := 5 }] :=
  ⟨by decide,
   C6_create_version_and_timestamps [] { Name := "a", Description := "b", Price := 1 } 5 5 7
     (by decide)⟩

/-- C7 counterexample: an update request carrying an invalid price on an
existing item ends in a validation failure, yet a repository read (the
GetByID fetch of the stored item, which the handler issues before
decoding and validating the body) has already been executed,
contradicting the claim that no repository operation occurs on a path
ending in a validation failure. -/
theorem C7_counterexample :
    (updateItemHandler [itemOne 1 0] [itemOne 1 0] 1
        { Name := none, Description := none, Price := some 2000 } 9).response
      = Response.failedValidation ∧
    (updateItemHandler [itemOne 1 0] [itemOne 1 0] 1
        { Name := none, Description := none, Price := some 2000 } 9).ops
      = [RepoOp.read 1] ∧
    [RepoOp.read 1] ≠ ([] : List RepoOp) := by
  decide

/-- C7 (amended): on the create path a validation failure occurs before
any repository operation (the trace is empty and the store unchanged);
on the update path a validation failure is preceded by exactly the one
GetByID read of the stored item and by no write, and the store is
unchanged. -/
theorem C7_validation_before_store_interaction :
    (∀ (db : List Item) (input : CreateInput) (now1 now2 newId : Nat),
      (createItemHandler db input now1 now2 newId).response = Response.failedValidation →
        (createItemHandler db input now1 now2 newId).ops = [] ∧
        (createItemHandler db input now1 now2 newId).db = db) ∧
    (∀ (dbRead dbWrite : List Item) (id : Nat) (input : UpdateInput) (now : Nat),
      (updateItemHandler dbRead dbWrite id input now).response = Response.failedValidation →
        (updateItemHandler dbRead dbWrite id input now).ops = [RepoOp.read id] ∧
        (updateItemHandler dbRead dbWrite id input now).db = dbWrite) := by
  constructor
  · intro db input now1 now2 newId hresp
    unfold createItemHandler at hresp ⊢
    set item : Item :=
      { ID := 0, Name := input.Name, Description := input.Description,
        Price := input.Price, Version := 1, CreatedAt := now1,
        UpdatedAt := now2 } with hitem
    by_cases hv : (ValidateItem Validator.New item).HasErrors = true
    · simp [hv]
    · simp only [Bool.not_eq_true] at hv
      simp only [hv, Bool.false_eq_true, if_false] at hresp
      cases hc : MongoRepository.Create db item newId with
      | error e => rw [hc] at hresp; simp at hresp
      | ok p => obtain ⟨id2, db2⟩ := p; rw [hc] at hresp; simp at hresp
  · intro dbRead dbWrite id input now hresp
    unfold updateItemHandler at hresp ⊢
    cases hr : MongoRepository.GetByID dbRead id with
    | error e => rw [hr] at hresp; simp at hresp
    | ok item0 =>
      rw [hr] at hresp
      by_cases hv : (ValidateItem Validator.New
          (applyUpdateInput item0 input now)).HasErrors = true
      · simp [hv]
      · simp only [Bool.not_eq_true] at hv
        simp only [hv, Bool.false_eq_true, if_false] at hresp
        cases hu : MongoRepository.Update dbWrite (applyUpdateInput item0 input now) with
        | error e =>
          rw [hu] at hresp
          cases e <;> simp at hresp
        | ok db2 => rw [hu] at hresp; simp at hresp

/-- C7 witness: the amended theorem applied at a concrete validation
failure on each path — a create request with an empty name (no
repository operation at all) and an update request with an out-of-range
price on an existing item (exactly one read, no write). -/
theorem C7_validation_before_store_interaction_witness :
    ((createItemHandler [] { Name := "", Description := "b", Price := 1 } 0 0 7).response
        = Response.failedValidation ∧
      (createItemHandler [] { Name := "", Description := "b", Price := 1 } 0 0 7).ops = [] ∧
      (createItemHandler [] { Name := "", Description := "b", Price := 1 } 0 0 7).db = []) ∧
    ((updateItemHandler [itemOne 1 0] [itemOne 1 0] 1
          { Name := none, Description := none, Price := some 2000 } 9).response
        = Response.failedValidation ∧
      (updateItemHandler [itemOne 1 0] [itemOne 1 0] 1
          { Name := none, Description := none, Price := some 2000 } 9).ops
        = [RepoOp.read 1] ∧
      (updateItemHandler [itemOne 1 0] [itemOne 1 0] 1
          { Name := none, Description := none, Price := some 2000 } 9).db
        = [itemOne 1 0]) :=
  ⟨⟨by decide,
    C7_validation_before_store_interaction.1 []
      { Name := "", Description := "b", Price := 1 } 0 0 7 (by decide)⟩,
   ⟨by decide,
    C7_validation_before_store_interaction.2 [itemOne 1 0] [itemOne 1 0] 1
      { Name := none, Description := none, Price := some 2000 } 9 (by decide)⟩⟩

/-- C10: when an item's description is empty, validation fails and the
error is recorded under the field key "name" (the source passes "name"
as the key of the description check), and no run of item validation ever
records an error under the key "description". -/
theorem C10_description_error_keyed_name (i : Item) :
    (i.Description = "" →
      (ValidateItem Validator.New i).Errors.any (fun kv => kv.1 == "name") = true) ∧
    (∀ kv ∈ (ValidateItem Validator.New i).Errors, kv.1 ≠ "description") := by
  constructor
  · intro hd
    have hb2 : (i.Description != "") = false := by simp [hd]
    cases hb1 : (i.Name != "") <;>
      cases hb3 : Between i.Price (mkRat 1 10) 1000 <;>
        simp [ValidateItem, Validator.Check, Validator.AddError, Validator.New,
          hb1, hb2, hb3]
  · intro kv hkv
    cases hb1 : (i.Name != "") <;>
      cases hb2 : (i.Description != "") <;>
        cases hb3 : Between i.Price (mkRat 1 10) 1000 <;>
          simp [ValidateItem, Validator.Check, Validator.AddError, Validator.New,
            hb1, hb2, hb3] at hkv
    all_goals
      first
      | (rcases hkv with h | h <;> simp [h])
      | simp [hkv]

/-- C10 witness: the theorem applied at a concrete item with an empty
description and at the concrete error entry it records. -/
theorem C10_description_error_keyed_name_witness :
    (ValidateItem Validator.New
        { ID := 1, Name := "a", Description := "", Price := 1, Version := 1,
          CreatedAt := 0, UpdatedAt := 0 }).Errors.any (fun kv => kv.1 == "name") = true ∧
    (("name", "must be provided") : String × String).1 ≠ "description" :=
  ⟨(C10_description_error_keyed_name
      { ID := 1, Name := "a", Description := "", Price := 1, Version := 1,
        CreatedAt := 0, UpdatedAt := 0 }).1 rfl,
   (C10_description_error_keyed_name
      { ID := 1, Name := "a", Description := "", Price := 1, Version := 1,
        CreatedAt := 0, UpdatedAt := 0 }).2 ("name", "must be provided") (by decide)⟩

/-- C5: item validation accepts price 0.1 and price 1000 (inclusive at
both ends of the range), rejects price 0.09999 and price 1000.01 (the
validator records an error, which the handlers map to the validation
failure response), and rejects an empty name and an empty description. -/
theorem C5_validation_boundaries (i : Item) :
    (i.Name ≠ "" → i.Description ≠ "" → (i.Price = 0.1 ∨ i.Price = 1000) →
      (ValidateItem Validator.New i).HasErrors = false) ∧
    (i.Price = 0.09999 → (ValidateItem Validator.New i).HasErrors = true) ∧
    (i.Price = 1000.01 → (ValidateItem Validator.New i).HasErrors = true) ∧
    (i.Name = "" → (ValidateItem Validator.New i).HasErrors = true) ∧
    (i.Description = "" → (ValidateItem Validator.New i).HasErrors = true) := by
  refine ⟨?_, ?_, ?_, ?_, ?_⟩
  · intro hn hd hp
    have hb1 : (i.Name != "") = true := by simp [hn]
    have hb2 : (i.Description != "") = true := by simp [hd]
    have hb3 : Between i.Price (mkRat 1 10) 1000 = true := by
      rcases hp with h | h <;>
        · rw [h]
          simp only [Between, Bool.and_eq_true, decide_eq_true_eq, Rat.mkRat_eq_div]
          norm_num
    simp [ValidateItem, Validator.Check, hb1, hb2, hb3, Validator.New,
      Validator.HasErrors]
  · intro hp
    have hb3 : Between i.Price (mkRat 1 10) 1000 = false := by
      rw [hp]
      simp only [Between, Bool.and_eq_false_iff, decide_eq_false_iff_not,
        Rat.mkRat_eq_div]
      left
      norm_num
    unfold ValidateItem
    rw [hb3]
    exact hasErrors_check_false _ _ _
  · intro hp
    have hb3 : Between i.Price (mkRat 1 10) 1000 = false := by
      rw [hp]
      simp only [Between, Bool.and_eq_false_iff, decide_eq_false_iff_not,
        Rat.mkRat_eq_div]
      right
      norm_num
    unfold ValidateItem
    rw [hb3]
    exact hasErrors_check_false _ _ _
  · intro hn
    have hb1 : (i.Name != "") = false := by simp [hn]
    unfold ValidateItem
    rw [hb1]
    exact hasErrors_check_mono _ _ _ _
      (hasErrors_check_mono _ _ _ _ (hasErrors_check_false _ _ _))
  · intro hd
    have hb2 : (i.Description != "") = false := by simp [hd]
    unfold ValidateItem
    rw [hb2]
    exact hasErrors_check_mono _ _ _ _ (hasErrors_check_false _ _ _)

/-- C5 witness: the theorem applied at concrete items hitting each
boundary — price 0.1 accepted, price 1000 accepted, price 0.09999
rejected, price 1000.01 rejected, empty name rejected, empty description
rejected. -/
theorem C5_validation_boundaries_witness :
    (ValidateItem Validator.New
        { ID := 1, Name := "a", Description := "b", Price := 0.1, Version := 1,
          CreatedAt := 0, UpdatedAt := 0 }).HasErrors = false ∧
    (ValidateItem Validator.New
        { ID := 1, Name := "a", Description := "b", Price := 1000, Version := 1,
          CreatedAt := 0, UpdatedAt := 0 }).HasErrors = false ∧
    (ValidateItem Validator.New
        { ID := 1, Name := "a", Description := "b", Price := 0.09999, Version := 1,
          CreatedAt := 0, UpdatedAt := 0 }).HasErrors = true ∧
    (ValidateItem Validator.New
        { ID := 1, Name := "a", Description := "b", Price := 1000.01, Version := 1,
          CreatedAt := 0, UpdatedAt := 0 }).HasErrors = true ∧
    (ValidateItem Validator.New
        { ID := 1, Name := "", Description := "b", Price := 1, Version := 1,
          CreatedAt := 0, UpdatedAt := 0 }).HasErrors = true ∧
    (ValidateItem Validator.New
        { ID := 1, Name := "a", Description := "", Price := 1, Version := 1,
          CreatedAt := 0, UpdatedAt := 0 }).HasErrors = true :=
  ⟨(C5_validation_boundaries _).1 (by decide) (by decide) (Or.inl rfl),
   (C5_validation_boundaries _).1 (by decide) (by decide) (Or.inr rfl),
   (C5_validation_boundaries _).2.1 rfl,
   (C5_validation_boundaries _).2.2.1 rfl,
   (C5_validation_boundaries _).2.2.2.1 rfl,
   (C5_validation_boundaries _).2.2.2.2 rfl⟩

/-- C1: an item read at version v whose stored version has since been
changed by another writer (so no document in the store at write time
carries (id, v)) makes the conditional Update fail with EditConflict and
leaves the store unmodified; the update handler maps this failure to the
edit-conflict response and performs no write (the resulting store is
exactly the store the concurrent writer left). -/
theorem C1_stale_version_edit_conflict
    (dbRead dbWrite : List Item) (id : Nat) (input : UpdateInput) (now : Nat)
    (item0 : Item)
    (hread : MongoRepository.GetByID dbRead id = Except.ok item0)
    (hstale : ∀ s ∈ dbWrite, s.ID = id → s.Version ≠ item0.Version)
    (hvalid : (ValidateItem Validator.New
        (applyUpdateInput item0 input now)).HasErrors = false) :
    MongoRepository.Update dbWrite (applyUpdateInput item0 input now)
      = Except.error RepoError.editConflict ∧
    (updateItemHandler dbRead dbWrite id input now).response
      = Response.editConflictResponse ∧
    (updateItemHandler dbRead dbWrite id input now).db = dbWrite := by
  have hid : item0.ID = id := (getByID_id_eq dbRead id item0 hread).2
  have hconf : MongoRepository.Update dbWrite (applyUpdateInput item0 input now)
      = Except.error RepoError.editConflict := by
    refine update_editConflict_of_no_match dbWrite _ ?_
    intro s hs hsid
    have hsid2 : s.ID = id := by simpa [applyUpdateInput, hid] using hsid
    simpa [applyUpdateInput] using hstale s hs hsid2
  refine ⟨hconf, ?_, ?_⟩ <;>
    · unfold updateItemHandler
      rw [hread]
      simp [hvalid, hconf]

/-- C1 witness: the theorem applied at a concrete interleaving — the
handler read the item at version 1, a concurrent writer left the store
at version 2, and the handler's conditional write with the stale
version 1 fails with EditConflict, leaving the concurrent writer's store
untouched. -/
theorem C1_stale_version_edit_conflict_witness :
    MongoRepository.Update [itemOne 2 5]
        (applyUpdateInput (itemOne 1 0)
          { Name := none, Description := none, Price := some 2 } 9)
      = Except.error RepoError.editConflict ∧
    (updateItemHandler [itemOne 1 0] [itemOne 2 5] 1
        { Name := none, Description := none, Price := some 2 } 9).response
      = Response.editConflictResponse ∧
    (updateItemHandler [itemOne 1 0] [itemOne 2 5] 1
        { Name := none, Description := none, Price := some 2 } 9).db
      = [itemOne 2 5] :=
  C1_stale_version_edit_conflict [itemOne 1 0] [itemOne 2 5] 1
    { Name := none, Description := none, Price := some 2 } 9 (itemOne 1 0)
    (by rfl) (by decide) (by decide)

/-- C3: a successful item update stores, under the requested identifier,
the item whose name, description and price are the supplied values where
the request body provided one and the values read from the store where
it did not, whose updatedAt is the current UTC time of the request
regardless of which fields were supplied, whose createdAt and identifier
are untouched, and whose version is the read version plus exactly 1. -/
theorem C3_partial_update_semantics
    (db : List Item) (id : Nat) (input : UpdateInput) (now : Nat) (item0 : Item)
    (hread : MongoRepository.GetByID db id = Except.ok item0)
    (hok : (updateItemHandler db db id input now).response = Response.ok) :
    lookupItem (updateItemHandler db db id input now).db id
      = some { ID := item0.ID
               Name := input.Name.getD item0.Name
               Description := input.Description.getD item0.Description
               Price := input.Price.getD item0.Price
               Version := item0.Version + 1
               CreatedAt := item0.CreatedAt
               UpdatedAt := now } := by
  obtain ⟨hfind, hid⟩ := getByID_id_eq db id item0 hread
  unfold updateItemHandler at hok ⊢
  rw [hread] at hok ⊢
  by_cases hv : (ValidateItem Validator.New
      (applyUpdateInput item0 input now)).HasErrors = true
  · simp [hv] at hok
  · simp only [Bool.not_eq_true] at hv
    simp only [hv, Bool.false_eq_true, if_false] at hok ⊢
    cases hu : MongoRepository.Update db (applyUpdateInput item0 input now) with
    | error e =>
      rw [hu] at hok
      cases e <;> simp at hok
    | ok db2 =>
      simp only
      unfold MongoRepository.Update at hu
      by_cases hany : db.any (fun s =>
          s.ID == (applyUpdateInput item0 input now).ID &&
          s.Version == (applyUpdateInput item0 input now).Version) = true
      · rw [if_pos hany] at hu
        have hdb2 : db2 = db.map (fun s =>
            if s.ID == (applyUpdateInput item0 input now).ID &&
               s.Version == (applyUpdateInput item0 input now).Version then
              { applyUpdateInput item0 input now with
                  Version := (applyUpdateInput item0 input now).Version + 1 }
            else s) := by
          cases hu
          rfl
        rw [hdb2]
        have := lookupItem_after_update db id item0 (applyUpdateInput item0 input now)
          { applyUpdateInput item0 input now with
              Version := (applyUpdateInput item0 input now).Version + 1 }
          hfind (by simpa [applyUpdateInput] using hid) rfl
          (by simpa [applyUpdateInput] using hid)
        rw [this]
        simp [applyUpdateInput, hid]
      · rw [if_neg hany] at hu
        cases hu

/-- C3 witness: the theorem applied at a concrete update that supplies
only the price — the stored item keeps its name and description, takes
the supplied price, gets updatedAt refreshed to the request time and its
version incremented from 1 to 2. -/
theorem C3_partial_update_semantics_witness :
    (updateItemHandler [itemOne 1 0] [itemOne 1 0] 1
        { Name := none, Description := none, Price := some 2 } 9).response
      = Response.ok ∧
    lookupItem (updateItemHandler [itemOne 1 0] [itemOne 1 0] 1
        { Name := none, Description := none, Price := some 2 } 9).db 1
      = some { ID := 1, Name := "a", Description := "b", Price := 2,
               Version := 2, CreatedAt := 0, UpdatedAt := 9 } :=
  ⟨by decide,
   C3_partial_update_semantics [itemOne 1 0] 1
     { Name := none, Description := none, Price := some 2 } 9 (itemOne 1 0)
     (by rfl) (by decide)⟩

/-- A sample stored user replica used by concrete witnesses. -/
def userFive (version : Int) : User :=
  { id := 5, name := "u", permissions := [("catalog:read")], version := version }

/-- A sample user-changed event used by concrete witnesses. -/
def eventFive (version : Int) : UserEvent :=
  { id := 5, name := "u2", permissions := [("catalog:write")], version := version }

/-- C2: one step of the Replica Synchronization Consumer never regresses
the stored replica version — an event whose version is at most the
stored one leaves the store exactly as it was (a stale or duplicate
redelivery is a no-op), an event with a strictly greater version
replaces the fields and sets the version to the incoming value, a first
sighting creates exactly one record carrying the incoming fields and
version while a duplicate redelivery of that same event changes nothing
and produces no second record, and in all cases the stored version for
the event's identifier never decreases. -/
theorem C2_replica_version_monotone (db : List User) (ev : UserEvent) :
    (∀ u, lookupUser db ev.id = some u → ev.version ≤ u.version →
      applyUserEvent db ev = db) ∧
    (∀ u, lookupUser db ev.id = some u → u.version < ev.version →
      lookupUser (applyUserEvent db ev) ev.id = some ev.toUser) ∧
    (lookupUser db ev.id = none →
      lookupUser (applyUserEvent db ev) ev.id = some ev.toUser ∧
      applyUserEvent (applyUserEvent db ev) ev = applyUserEvent db ev ∧
      (applyUserEvent db ev).countP (fun u => u.id == ev.id) = 1) ∧
    (∀ u u', lookupUser db ev.id = some u →
      lookupUser (applyUserEvent db ev) ev.id = some u' →
      u.version ≤ u'.version) := by
  have t1 : ∀ u, lookupUser db ev.id = some u → ev.version ≤ u.version →
      applyUserEvent db ev = db := by
    intro u hu hle
    unfold applyUserEvent
    rw [hu]
    simp [hle]
  have t2 : ∀ u, lookupUser db ev.id = some u → u.version < ev.version →
      lookupUser (applyUserEvent db ev) ev.id = some ev.toUser := by
    intro u hu hlt
    unfold applyUserEvent
    rw [hu]
    simp only
    rw [if_neg (not_le.mpr hlt)]
    exact lookupUser_replace db ev.id ev.toUser rfl u hu
  have t3 : lookupUser db ev.id = none →
      lookupUser (applyUserEvent db ev) ev.id = some ev.toUser ∧
      applyUserEvent (applyUserEvent db ev) ev = applyUserEvent db ev ∧
      (applyUserEvent db ev).countP (fun u => u.id == ev.id) = 1 := by
    intro hnone
    have happ : applyUserEvent db ev = db ++ [ev.toUser] := by
      unfold applyUserEvent
      rw [hnone]
    have hlk : lookupUser (db ++ [ev.toUser]) ev.id = some ev.toUser := by
      unfold lookupUser at hnone ⊢
      rw [List.find?_append, hnone]
      simp [UserEvent.toUser]
    refine ⟨by rw [happ]; exact hlk, ?_, ?_⟩
    · rw [happ]
      unfold applyUserEvent
      rw [hlk]
      simp
      intro h
      simp [UserEvent.toUser] at h
    · rw [happ, List.countP_append]
      have h0 : db.countP (fun u => u.id == ev.id) = 0 := by
        rw [List.countP_eq_zero]
        intro a ha
        exact List.find?_eq_none.mp hnone a ha
      simp [h0, UserEvent.toUser]
  have t4 : ∀ u u', lookupUser db ev.id = some u →
      lookupUser (applyUserEvent db ev) ev.id = some u' →
      u.version ≤ u'.version := by
    intro u u' hu hu'
    rcases le_or_lt ev.version u.version with hle | hlt
    · rw [t1 u hu hle, hu] at hu'
      cases hu'
      exact le_refl _
    · rw [t2 u hu hlt] at hu'
      cases hu'
      exact le_of_lt hlt
  exact ⟨t1, t2, t3, t4⟩

/-- C2 witness: the theorem applied at concrete runs — a stale event
(version 2 against stored version 3) is a no-op, a newer event (version
5) replaces fields and version, a first sighting on an empty store
creates exactly one record and its duplicate redelivery changes nothing,
and the stored version never decreased in the step with a hit. -/
theorem C2_replica_version_monotone_witness :
    applyUserEvent [userFive 3] (eventFive 2) = [userFive 3] ∧
    lookupUser (applyUserEvent [userFive 3] (eventFive 5)) 5
      = some (eventFive 5).toUser ∧
    (lookupUser (applyUserEvent [] (eventFive 3)) 5 = some (eventFive 3).toUser ∧
      applyUserEvent (applyUserEvent [] (eventFive 3)) (eventFive 3)
        = applyUserEvent [] (eventFive 3) ∧
      (applyUserEvent [] (eventFive 3)).countP (fun u => u.id == 5) = 1) ∧
    (3 : Int) ≤ ((eventFive 5).toUser).version :=
  ⟨(C2_replica_version_monotone [userFive 3] (eventFive 2)).1 (userFive 3)
      (by decide) (by decide),
   (C2_replica_version_monotone [userFive 3] (eventFive 5)).2.1 (userFive 3)
      (by decide) (by decide),
   (C2_replica_version_monotone [] (eventFive 3)).2.2.1 (by decide),
   (C2_replica_version_monotone [userFive 3] (eventFive 5)).2.2.2 (userFive 3)
      ((eventFive 5).toUser) (by decide)
      ((C2_replica_version_monotone [userFive 3] (eventFive 5)).2.1 (userFive 3)
        (by decide) (by decide))⟩

/-- A sample five-document result set used by the pagination witness. -/
def fiveItems : List Item :=
  [itemOne 1 0, itemOne 1 1, itemOne 1 2, itemOne 1 3, itemOne 1 4]

/-- C9: for N matching documents and page size P the reported total
pages value is the ceiling of N divided by P (characterized as the least
k with N at most P times k), requesting a page beyond the last returns
an empty sequence while the metadata still reports the true totals and
no error occurs (the operation is total), and an empty result set yields
all-zero metadata without error. -/
theorem C9_pagination_metadata (matching : List Item) (page pageSize : Nat)
    (hpage : 0 < page) (hsize : 0 < pageSize) :
    (∀ k, (getAllPage matching page pageSize).2.TotalPages ≤ k ↔
      matching.length ≤ pageSize * k) ∧
    ((getAllPage matching page pageSize).2.TotalPages < page →
      (getAllPage matching page pageSize).1 = []) ∧
    (matching.length ≠ 0 →
      (getAllPage matching page pageSize).2.TotalRecords = matching.length ∧
      (getAllPage matching page pageSize).2.CurrentPage = page ∧
      (getAllPage matching page pageSize).2.PageSize = pageSize) ∧
    (matching.length = 0 →
      (getAllPage matching page pageSize).2
        = { CurrentPage := 0, PageSize := 0, TotalPages := 0, TotalRecords := 0 }) := by
  have hchar : ∀ k, (getAllPage matching page pageSize).2.TotalPages ≤ k ↔
      matching.length ≤ pageSize * k := by
    intro k
    by_cases hN : matching.length = 0
    · simp [getAllPage, calculateMetadata, hN]
    · simp only [getAllPage, calculateMetadata, hN, if_false]
      rw [Nat.div_le_iff_le_mul_add_pred hsize]
      have h1 : 1 ≤ matching.length := Nat.one_le_iff_ne_zero.mpr hN
      generalize pageSize * k = m
      omega
  refine ⟨hchar, ?_, ?_, ?_⟩
  · intro hbeyond
    have hk : (getAllPage matching page pageSize).2.TotalPages ≤ page - 1 := by
      omega
    have hlen : matching.length ≤ pageSize * (page - 1) := (hchar (page - 1)).mp hk
    have hdrop : matching.drop ((page - 1) * pageSize) = [] :=
      List.drop_eq_nil_of_le (by rw [Nat.mul_comm] at hlen; exact hlen)
    simp [getAllPage, hdrop]
  · intro hN
    simp [getAllPage, calculateMetadata, hN]
  · intro hN
    simp [getAllPage, calculateMetadata, hN]

/-- C9 witness: the theorem applied at a concrete result set of five
documents with page size two — three pages are reported (the least k
with 5 at most 2k), page four is beyond the last and returns an empty
sequence while the metadata still reports five total records. -/
theorem C9_pagination_metadata_witness :
    ((getAllPage fiveItems 4 2).2.TotalPages ≤ 3 ↔ fiveItems.length ≤ 2 * 3) ∧
    (getAllPage fiveItems 4 2).1 = [] ∧
    (getAllPage fiveItems 4 2).2.TotalRecords = 5 ∧
    (getAllPage [] 1 20).2
      = { CurrentPage := 0, PageSize := 0, TotalPages := 0, TotalRecords := 0 } := by
  have h := C9_pagination_metadata fiveItems 4 2 (by decide) (by decide)
  have hempty := C9_pagination_metadata [] 1 20 (by decide) (by decide)
  refine ⟨h.1 3, h.2.1 ?_, (h.2.2.1 (by decide)).1, hempty.2.2.2 rfl⟩
  have h3 : (getAllPage fiveItems 4 2).2.TotalPages ≤ 3 := (h.1 3).mpr (by decide)
  omega

/-- C4 witness: the amended theorem applied at concrete provisioning
outcomes — an "already exists" collection-creation failure is swallowed
and startup proceeds. -/
theorem C4_provisioning_error_policy_witness :
    CreateItemsCollection CreateCollectionResult.alreadyExists CreateIndexesResult.ok = none ∧
    startupAbortsOnItemsProvisioning CreateCollectionResult.alreadyExists CreateIndexesResult.ok
      = false :=
  ⟨C4_provisioning_error_policy.1 CreateIndexesResult.ok,
   C4_provisioning_error_policy.2.2.2.2.1 CreateCollectionResult.alreadyExists
     CreateIndexesResult.ok (C4_provisioning_error_policy.1 CreateIndexesResult.ok)⟩
